import Mathlib

/-!
Verification of the ESP32 demo backend (`backend/index.js`, `backend/auth.js`).

The JavaScript source is shallowly embedded: JS numbers that hold integral
timestamps, counters and exit codes become `Int`; JS strings become `String`
(the Process Runner's byte buffer becomes `List Char`, a faithful sequence
model of the captured stream); the mutable `Map` stores become functions
`String → Option _` threaded through each call; promises that resolve or
reject become `Except`; the filesystem and the spawned `arduino-cli`
processes become explicit function parameters of the request handler.
-/

/-- A JS request-body value as far as the handlers inspect it: `undefined`,
a string, or some truthy non-string value. -/
inductive JsVal where
  | undef
  | str (s : String)
  | nonStr
deriving DecidableEq

/-- JS truthiness for the values of `JsVal` (`undefined` and `""` are falsy). -/
def jsTruthy : JsVal → Bool
  | .undef => false
  | .str s => s ≠ ""
  | .nonStr => true

/-- Update one key of a string-keyed store (models `map.set(key, v)`). -/
def setStore {β : Type} (key : String) (v : β) (store : String → Option β) :
    String → Option β :=
  fun k => if k = key then some v else store k

/-- Remove one key of a string-keyed store (models `map.delete(key)`). -/
def delStore {β : Type} (key : String) (store : String → Option β) :
    String → Option β :=
  fun k => if k = key then none else store k

/-- `Math.ceil(a / b)` for integral `a` and positive integral `b`, as computed
by the JS sources on millisecond quantities (exact for these magnitudes). -/
def jsCeilDiv (a b : Int) : Int := -((-a) / b)

-- =============================================================================
-- Sliding-window rate limiter (`rateLimit`, index.js lines 59-79)
-- =============================================================================

def RATE_LIMIT_WINDOW_MS : Int := 15 * 60 * 1000

def RATE_LIMIT_MAX_REQUESTS : Int := 10

/-- One entry of `rateLimitStore`. -/
structure RateRecord where
  windowStart : Int
  count : Int
deriving DecidableEq

/-- The value returned by `rateLimit`: `{allowed:true, remaining}` or
`{allowed:false, retryAfter}`. -/
inductive RateLimitResult where
  | allowedWith (remaining : Int)
  | deniedWith (retryAfter : Int)
deriving DecidableEq

abbrev RateStore := String → Option RateRecord

/-- `rateLimit(key)` at clock value `now`, over an explicit store. -/
def rateLimit (now : Int) (key : String) (store : RateStore) :
    RateLimitResult × RateStore :=
  match store key with
  | none =>
      (.allowedWith (RATE_LIMIT_MAX_REQUESTS - 1), setStore key ⟨now, 1⟩ store)
  | some record =>
      if RATE_LIMIT_WINDOW_MS < now - record.windowStart then
        (.allowedWith (RATE_LIMIT_MAX_REQUESTS - 1), setStore key ⟨now, 1⟩ store)
      else if RATE_LIMIT_MAX_REQUESTS ≤ record.count then
        (.deniedWith (jsCeilDiv (RATE_LIMIT_WINDOW_MS - (now - record.windowStart)) 1000),
          store)
      else
        (.allowedWith (RATE_LIMIT_MAX_REQUESTS - (record.count + 1)),
          setStore key ⟨record.windowStart, record.count + 1⟩ store)

/-- Run a sequence of `rateLimit` calls for one key, at the given clock
values, collecting the results. -/
def runRateCalls : List Int → String → RateStore → List RateLimitResult × RateStore
  | [], _, store => ([], store)
  | t :: rest, key, store =>
      let step := rateLimit t key store
      let next := runRateCalls rest key step.2
      (step.1 :: next.1, next.2)

-- =============================================================================
-- Credential failure throttle (index.js lines 91-129)
-- =============================================================================

def CREDENTIAL_WINDOW_MS : Int := 10 * 60 * 1000

def CREDENTIAL_MAX_FAILURES : Int := 5

/-- One entry of `credentialThrottleStore`. -/
structure CredRecord where
  failures : Int
  firstFailure : Int
deriving DecidableEq

/-- The value returned by `getCredentialThrottle`. -/
inductive CredStatus where
  | notBlocked
  | blockedWith (retryAfter : Int)
deriving DecidableEq

abbrev CredStore := String → Option CredRecord

/-- `getCredentialThrottle(key)` at clock value `now`; it may also delete an
expired record, so the (possibly updated) store is returned as well. -/
def getCredentialThrottle (now : Int) (key : String) (store : CredStore) :
    CredStatus × CredStore :=
  if key = "" then (.notBlocked, store)
  else
    match store key with
    | none => (.notBlocked, store)
    | some record =>
        if CREDENTIAL_WINDOW_MS < now - record.firstFailure then
          (.notBlocked, delStore key store)
        else if CREDENTIAL_MAX_FAILURES ≤ record.failures then
          (.blockedWith (jsCeilDiv (CREDENTIAL_WINDOW_MS - (now - record.firstFailure)) 1000),
            store)
        else
          (.notBlocked, store)

/-- `recordCredentialFailure(key)` at clock value `now`. -/
def recordCredentialFailure (now : Int) (key : String) (store : CredStore) :
    CredStore :=
  if key = "" then store
  else
    match store key with
    | none => setStore key ⟨1, now⟩ store
    | some record =>
        if CREDENTIAL_WINDOW_MS < now - record.firstFailure then
          setStore key ⟨1, now⟩ store
        else
          setStore key ⟨record.failures + 1, record.firstFailure⟩ store

/-- `resetCredentialFailures(key)`. -/
def resetCredentialFailures (key : String) (store : CredStore) : CredStore :=
  delStore key store

/-- A sequence of `recordCredentialFailure` calls for one key. -/
def runCredFailures (ts : List Int) (key : String) (store : CredStore) : CredStore :=
  ts.foldl (fun st t => recordCredentialFailure t key st) store

-- =============================================================================
-- Path handling (`sanitizePath`, index.js lines 143-150, and the
-- `path.posix` operations it and the flash handler rely on)
-- =============================================================================

/-- `inputPath.replace(/\\/g, '/')`. -/
def replaceBackslashes (s : String) : String :=
  String.mk (s.toList.map (fun c => if c = '\\' then '/' else c))

/-- A whitespace character as trimmed by `String.prototype.trim`. -/
def jsWhitespaceChar (c : Char) : Bool :=
  c = ' ' ∨ c = '\t' ∨ c = '\n' ∨ c = '\r' ∨ c = '\x0b' ∨ c = '\x0c' ∨ c = ' '

/-- `s.trim()`. -/
def jsTrim (s : String) : String :=
  String.mk (((s.toList.dropWhile jsWhitespaceChar).reverse.dropWhile
    jsWhitespaceChar).reverse)

/-- `s.split(sep)` on character lists: `[]` maps to `[[]]`, and every
separator opens a new segment. -/
def splitChar (sep : Char) : List Char → List (List Char)
  | [] => [[]]
  | c :: rest =>
      match splitChar sep rest with
      | [] => [[c]]
      | s :: tail => if c = sep then [] :: s :: tail else (c :: s) :: tail

/-- `p.split('/')`. -/
def splitSlash : List Char → List (List Char) := splitChar '/'

/-- Join segments back with `/` separators (the inverse of `splitSlash`). -/
def joinSlash : List (List Char) → List Char
  | [] => []
  | [s] => s
  | s :: rest => s ++ '/' :: joinSlash rest

/-- One step of Node's `normalizeString`: process one `/`-separated segment
against the stack of kept segments (stack head = most recent segment). -/
def segStep (allowAboveRoot : Bool) (stack : List (List Char)) (seg : List Char) :
    List (List Char) :=
  if seg = [] ∨ seg = ['.'] then stack
  else if seg = ['.', '.'] then
    match stack with
    | [] => if allowAboveRoot then [['.', '.']] else []
    | top :: rest =>
        if top = ['.', '.'] then (if allowAboveRoot then ['.', '.'] :: stack else stack)
        else rest
  else seg :: stack

/-- Node's `normalizeString`: resolve `.` and `..` segments. -/
def normalizeSegs (allowAboveRoot : Bool) (segs : List (List Char)) : List Char :=
  joinSlash ((segs.foldl (segStep allowAboveRoot) []).reverse)

/-- `path.posix.normalize`, on character lists. -/
def posixNormalizeChars (cs : List Char) : List Char :=
  if cs = [] then ['.']
  else
    let isAbs : Bool := cs.head? = some '/'
    let trailing : Bool := cs.getLast? = some '/'
    let core := normalizeSegs (!isAbs) (splitSlash cs)
    if core = [] then
      if isAbs then ['/'] else if trailing then ['.', '/'] else ['.']
    else
      let withTail := if trailing then core ++ ['/'] else core
      if isAbs then '/' :: withTail else withTail

/-- `path.posix.normalize`. -/
def posixNormalize (p : String) : String :=
  String.mk (posixNormalizeChars p.toList)

/-- `path.resolve(root, p)` on a POSIX system, for an absolute `root`
(which `PROJECT_ROOT = path.resolve(__dirname, '..')` is). -/
def posixResolve (root p : String) : String :=
  let combined :=
    if (p.toList.head? = some '/' : Bool) then p.toList
    else root.toList ++ '/' :: p.toList
  String.mk ('/' :: normalizeSegs false (splitSlash combined))

/-- `s.startsWith(pre)` (JS `String.prototype.startsWith`). -/
def strStartsWith (s pre : String) : Bool :=
  pre.toList.isPrefixOf s.toList

/-- Whether a character list contains the two-character run `..`
(models `normalized.includes('..')`). -/
def hasDotDot : List Char → Bool
  | '.' :: '.' :: _ => true
  | _ :: rest => hasDotDot rest
  | [] => false

/-- `s.includes('..')`. -/
def includesDotDot (s : String) : Bool := hasDotDot s.toList

/-- `sanitizePath(inputPath)` (index.js lines 143-150). -/
def sanitizePath : JsVal → Option String
  | .undef => none
  | .nonStr => none
  | .str s =>
      let trimmed := jsTrim (replaceBackslashes s)
      if trimmed = "" then none
      else
        let normalized := posixNormalize trimmed
        if includesDotDot normalized then none
        else some normalized

/-- The index of the last `.` in a character list, if any. -/
def lastDotAux : List Char → Nat → Option Nat → Option Nat
  | [], _, acc => acc
  | c :: cs, i, acc => lastDotAux cs (i + 1) (if c = '.' then some i else acc)

/-- `path.extname(p)` (POSIX), for paths without a trailing slash. -/
def posixExtname (p : String) : String :=
  let b := (splitSlash p.toList).getLastD []
  match lastDotAux b 0 none with
  | none => ""
  | some i => if i = 0 then "" else if b = ['.', '.'] then "" else String.mk (b.drop i)

/-- `s.toLowerCase()` on the ASCII extension strings compared here. -/
def strToLower (s : String) : String :=
  String.mk (s.toList.map Char.toLower)

-- =============================================================================
-- Input validators (index.js lines 152-171)
-- =============================================================================

/-- A character of the class `[\w\-\/.:]` of `SERIAL_PORT_PATTERN`. -/
def isSerialPortChar (c : Char) : Bool :=
  c.isAlphanum ∨ c = '_' ∨ c = '-' ∨ c = '/' ∨ c = '.' ∨ c = ':'

/-- `SERIAL_PORT_PATTERN.test(s)` for `/^[\w\-\/.:]+$/`. -/
def serialPortPatternTest (s : String) : Bool :=
  (!s.toList.isEmpty) && s.toList.all isSerialPortChar

/-- `isValidSerialPort(portPath)`; `none` stands for a non-string value. -/
def isValidSerialPort : Option String → Bool
  | none => false
  | some s => (s.length ≤ 200 : Bool) && serialPortPatternTest s

/-- A character of the class `[\w:.\-]` of `FQBN_PATTERN`. -/
def isFqbnChar (c : Char) : Bool :=
  c.isAlphanum ∨ c = '_' ∨ c = ':' ∨ c = '.' ∨ c = '-'

/-- `FQBN_PATTERN.test(s)` for `/^[\w:.\-]{3,120}$/`. -/
def fqbnPatternTest (s : String) : Bool :=
  (3 ≤ s.length : Bool) && (s.length ≤ 120 : Bool) && s.toList.all isFqbnChar

/-- `isValidFqbn(fqbn)`; `none` stands for an absent field.  An empty string
is falsy in JS, so it takes the `if (!fqbn) return true` early exit. -/
def isValidFqbn : Option String → Bool
  | none => true
  | some s => if s = "" then true else (s.length ≤ 120 : Bool) && fqbnPatternTest s

-- =============================================================================
-- Process Runner (`spawnCliAndStream`, index.js lines 525-574)
-- =============================================================================

/-- The error object built by `spawnCliAndStream` when it rejects from the
`close` handler: `new Error(message)` with `error.timedOut` and
`error.cliOutput` attached. -/
structure CliError where
  message : String
  timedOut : Bool
  cliOutput : String
deriving DecidableEq

/-- Rendering of the exit code into the error message (`code` is `null` when
the process was killed by a signal). -/
def codeText : Option Int → String
  | none => "null"
  | some n => toString n

/-- The `close` handler of `spawnCliAndStream` (lines 563-572): the decision
taken on process exit, given the `timedOut` flag, the exit code and the
captured output at that moment. -/
def closeHandler (timedOut : Bool) (code : Option Int) (output : String) :
    Except CliError String :=
  if timedOut = false ∧ code = some 0 then .ok output
  else
    .error
      { message :=
          if timedOut then "arduino-cli timed out"
          else "arduino-cli exited with code " ++ codeText code
        timedOut := timedOut
        cliOutput := output }

/-- `appendChunk` (lines 538-543): append a data chunk to the captured
output, then keep only the most recent `maxBuffer` elements. -/
def appendChunk (maxBuffer : Nat) (output chunk : List Char) : List Char :=
  let o := output ++ chunk
  if maxBuffer < o.length then o.drop (o.length - maxBuffer) else o

/-- The captured output after a sequence of `data` events. -/
def capturedOutput (maxBuffer : Nat) (chunks : List (List Char)) : List Char :=
  chunks.foldl (appendChunk maxBuffer) []

/-- The tail of `w` of length `min w.length n`. -/
def tailBytes (w : List Char) (n : Nat) : List Char := w.drop (w.length - n)

-- =============================================================================
-- Flash endpoint (`POST /api/flash`, index.js lines 459-523)
-- =============================================================================

/-- What `fs.statSync` reports for an existing path. -/
inductive FsNode where
  | file
  | dir
deriving DecidableEq

/-- The observable outcome of one `POST /api/flash` request: HTTP status,
response message, and the argument vectors passed to `spawnCliAndStream`
(compile/upload invocations), in order. -/
structure FlashOutcome where
  status : Int
  message : String
  cliCalls : List (List String)
deriving DecidableEq

/-- `if (fqbn) args.push('--fqbn', fqbn)`. -/
def fqbnArgs : Option String → List String
  | none => []
  | some s => if s = "" then [] else ["--fqbn", s]

/-- The message chosen in the flash handler's catch block (lines 516-522). -/
def flashFailureMessage (e : CliError) : String :=
  if e.timedOut then "Flash operation timed out. Please verify the board connection."
  else "Failed to compile or upload sketch"

/-- The `try { await compile; await upload } catch` block of the flash
handler (index.js lines 510-522): run the compile invocation, run the upload
invocation only if compile resolved, and map the first rejection to the
HTTP 500 response.  The outcome records every Process Runner invocation. -/
def runFlashPhases (runner : List String → Except CliError String)
    (compileArgs uploadArgs : List String) : FlashOutcome :=
  match runner compileArgs with
  | .error e => ⟨500, flashFailureMessage e, [compileArgs]⟩
  | .ok _ =>
    match runner uploadArgs with
    | .error e => ⟨500, flashFailureMessage e, [compileArgs, uploadArgs]⟩
    | .ok _ => ⟨200, "Upload complete", [compileArgs, uploadArgs]⟩

/-- The `POST /api/flash` handler (after the auth gate), over an explicit
project root, filesystem, `arduino-cli version` probe outcome, and Process
Runner.  `runner args` is the settled promise of `spawnCliAndStream(args)`. -/
def flashHandler (root : String) (fsys : String → Option FsNode) (probeOk : Bool)
    (runner : List String → Except CliError String)
    (sketchPath : JsVal) (port : Option String) (fqbn : Option String) :
    FlashOutcome :=
  match port with
  | none => ⟨400, "Missing sketchPath or port", []⟩
  | some ps =>
    if jsTruthy sketchPath = false ∨ ps = "" then
      ⟨400, "Missing sketchPath or port", []⟩
    else if isValidSerialPort (some ps) = false then
      ⟨400, "Invalid serial port identifier", []⟩
    else if isValidFqbn fqbn = false then
      ⟨400, "Invalid FQBN value", []⟩
    else
      match sanitizePath sketchPath with
      | none => ⟨400, "Invalid sketch path", []⟩
      | some sanitized =>
        let resolvedSketch := posixResolve root sanitized
        if strStartsWith resolvedSketch root = false then
          ⟨400, "Sketch path must stay within project workspace", []⟩
        else
          let extension := strToLower (posixExtname resolvedSketch)
          if ¬(extension = ".ino" ∨ extension = ".bin") then
            ⟨400, "Unsupported sketch file extension", []⟩
          else
            match fsys resolvedSketch with
            | none => ⟨400, "Sketch file not found", []⟩
            | some FsNode.dir => ⟨400, "Sketch path must point to a file", []⟩
            | some FsNode.file =>
              if probeOk = false then
                ⟨500, "arduino-cli not available on PATH", []⟩
              else
                runFlashPhases runner
                  ("compile" :: resolvedSketch :: fqbnArgs fqbn)
                  ("upload" :: resolvedSketch :: "--port" :: ps :: fqbnArgs fqbn)

-- =============================================================================
-- Auth gate (`authMiddleware`, auth.js lines 42-55)
-- =============================================================================

/-- `authMiddleware`, over an abstract token verifier (`verifyToken` returns
the payload or `null`).  The outcome is either the 401 response
(status, message) or the decoded payload attached to the request. -/
def authMiddleware {α : Type} (verify : String → Option α)
    (authHeader : Option String) : Except (Int × String) α :=
  match authHeader with
  | none => .error (401, "Missing Authorization header")
  | some auth =>
    if auth = "" then .error (401, "Missing Authorization header")
    else
      match splitChar ' ' auth.toList with
      | [p0, p1] =>
          if p0 = "Bearer".toList then
            match verify (String.mk p1) with
            | none => .error (401, "Invalid or expired token")
            | some payload => .ok payload
          else .error (401, "Bad Authorization format")
      | _ => .error (401, "Bad Authorization format")

-- =============================================================================
-- Helper lemmas
-- =============================================================================

lemma setStore_same {β : Type} (key : String) (v : β) (store : String → Option β) :
    setStore key v store key = some v := by
  simp [setStore]

lemma isValidSerialPort_shape (port : Option String)
    (h : isValidSerialPort port = true) :
    ∃ ps, port = some ps ∧ ps ≠ "" ∧ isValidSerialPort (some ps) = true := by
  cases port with
  | none => simp [isValidSerialPort] at h
  | some ps =>
      refine ⟨ps, rfl, ?_, h⟩
      intro he
      subst he
      simp [isValidSerialPort, serialPortPatternTest] at h

lemma appendChunk_tail (m : Nat) (w c : List Char) :
    appendChunk m (tailBytes w m) c = tailBytes (w ++ c) m := by
  by_cases hwm : w.length ≤ m
  · have h0 : w.length - m = 0 := by omega
    have hw : tailBytes w m = w := by
      unfold tailBytes
      rw [h0, List.drop_zero]
    rw [hw]
    unfold appendChunk tailBytes
    by_cases h1 : m < (w ++ c).length
    · simp only [if_pos h1]
    · simp only [if_neg h1]
      have h2 : (w ++ c).length - m = 0 := by omega
      rw [h2, List.drop_zero]
  · push_neg at hwm
    unfold appendChunk tailBytes
    have hlen : (w.drop (w.length - m)).length = m := by
      rw [List.length_drop]
      omega
    by_cases hc : c = []
    · subst hc
      have h1 : ¬ m < (w.drop (w.length - m)).length := by
        rw [hlen]
        omega
      simp only [List.append_nil, if_neg h1]
    · have hcpos : 0 < c.length := List.length_pos.mpr hc
      have h1 : m < (w.drop (w.length - m) ++ c).length := by
        rw [List.length_append, hlen]
        omega
      simp only [if_pos h1]
      rw [List.length_append, hlen]
      have harg : m + c.length - m = c.length := by omega
      rw [harg, List.drop_append_eq_append_drop, List.drop_drop, hlen,
        List.drop_append_eq_append_drop, List.length_append]
      have e1 : w.length - m + c.length = w.length + c.length - m := by omega
      have e2 : c.length - m = w.length + c.length - m - w.length := by omega
      rw [e1, e2]

lemma foldl_appendChunk_tail (m : Nat) (chunks : List (List Char)) :
    ∀ w : List Char,
      chunks.foldl (appendChunk m) (tailBytes w m) = tailBytes (w ++ chunks.flatten) m := by
  induction chunks with
  | nil =>
      intro w
      simp
  | cons c cs ih =>
      intro w
      simp only [List.foldl_cons, List.flatten_cons]
      rw [appendChunk_tail, ih (w ++ c), List.append_assoc]

-- =============================================================================
-- Claims
-- =============================================================================

/-- C4: the Process Runner's output buffer is a sliding tail: after any
sequence of appended chunks under cap `maxBuffer`, the retained buffer equals
the suffix of the concatenation of everything written, of length
`min total maxBuffer`, and in particular never exceeds `maxBuffer`; new data
is never dropped, only the oldest prefix. -/
theorem c4_output_buffer_is_sliding_tail (maxBuffer : Nat) (chunks : List (List Char)) :
    capturedOutput maxBuffer chunks = tailBytes chunks.flatten maxBuffer
    ∧ capturedOutput maxBuffer chunks <:+ chunks.flatten
    ∧ (capturedOutput maxBuffer chunks).length = min chunks.flatten.length maxBuffer
    ∧ (capturedOutput maxBuffer chunks).length ≤ maxBuffer := by
  have h : capturedOutput maxBuffer chunks = tailBytes chunks.flatten maxBuffer := by
    have h0 := foldl_appendChunk_tail maxBuffer chunks []
    simpa [capturedOutput, tailBytes] using h0
  refine ⟨h, ?_, ?_, ?_⟩
  · rw [h]
    exact List.drop_suffix _ _
  · rw [h]
    unfold tailBytes
    rw [List.length_drop]
    omega
  · rw [h]
    unfold tailBytes
    rw [List.length_drop]
    omega

/-- C3 counterexample: two exits with different exit codes, observed after the
timeout fired, produce identical rejection values, so the rejection error does
not carry the process exit code (it appears nowhere in the error object, and
the timed-out message does not mention it). -/
theorem c3_counterexample :
    closeHandler true (some 1) "out" = closeHandler true (some 2) "out"
    ∧ some (1 : Int) ≠ some (2 : Int) :=
  ⟨rfl, by decide⟩

/-- C3 (amended): if the timeout has not fired and the exit code is 0, the
promise resolves with the captured output; otherwise it rejects with an error
carrying the `timedOut` flag and the captured output, whose message includes
the exit code exactly when the failure is not a timeout. -/
theorem c3_close_handler_amended (timedOut : Bool) (code : Option Int) (output : String) :
    (timedOut = false ∧ code = some 0 →
      closeHandler timedOut code output = .ok output)
    ∧ (¬(timedOut = false ∧ code = some 0) →
        closeHandler timedOut code output =
          .error ⟨if timedOut then "arduino-cli timed out"
                  else "arduino-cli exited with code " ++ codeText code,
                 timedOut, output⟩) := by
  constructor
  · intro h
    unfold closeHandler
    rw [if_pos h]
  · intro h
    unfold closeHandler
    rw [if_neg h]

/-- Witness for C3 (amended) at concrete inputs. -/
theorem c3_close_handler_amended_witness :
    closeHandler false (some 0) "captured" = .ok "captured"
    ∧ closeHandler true (some 5) "captured" =
        .error ⟨"arduino-cli timed out", true, "captured"⟩ := by
  constructor
  · exact (c3_close_handler_amended false (some 0) "captured").1 ⟨rfl, rfl⟩
  · have h := (c3_close_handler_amended true (some 5) "captured").2 (by simp)
    simpa using h

/-- C8 counterexample: two failing authentication attempts (missing header vs
malformed header) both get HTTP 401 but with different messages, so the
response message is not uniform across failure causes. -/
theorem c8_counterexample :
    authMiddleware (fun _ => (none : Option Unit)) none
      = .error (401, "Missing Authorization header")
    ∧ authMiddleware (fun _ => (none : Option Unit)) (some "Basic abc")
      = .error (401, "Bad Authorization format")
    ∧ "Missing Authorization header" ≠ "Bad Authorization format" :=
  ⟨rfl, rfl, by decide⟩

/-- C8 (amended): every failing authentication attempt at the auth gate gets
HTTP status 401, but the message names the failure cause: one of
"Missing Authorization header", "Bad Authorization format",
"Invalid or expired token". -/
theorem c8_auth_gate_401_with_cause {α : Type} (verify : String → Option α)
    (authHeader : Option String) (e : Int × String)
    (h : authMiddleware verify authHeader = .error e) :
    e.1 = 401
    ∧ (e.2 = "Missing Authorization header"
        ∨ e.2 = "Bad Authorization format"
        ∨ e.2 = "Invalid or expired token") := by
  unfold authMiddleware at h
  repeat' split at h
  all_goals
    first
      | exact Except.noConfusion h
      | (injection h with h1
         subst h1
         exact ⟨rfl, by simp⟩)

/-- Witness for C8 (amended) at a concrete failing request. -/
theorem c8_auth_gate_401_with_cause_witness :
    ((401 : Int) = 401)
    ∧ ("Invalid or expired token" = "Missing Authorization header"
        ∨ "Invalid or expired token" = "Bad Authorization format"
        ∨ "Invalid or expired token" = "Invalid or expired token") :=
  c8_auth_gate_401_with_cause (fun _ => (none : Option Unit)) (some "Bearer tok")
    (401, "Invalid or expired token") rfl

/-- C9: `isValidFqbn` accepts an absent or empty board identifier, but
rejects every present identifier string of length 1 or 2 (the allow-list
pattern requires 3 to 120 characters), so the flash endpoint answers
HTTP 400 "Invalid FQBN value" for such short inputs — including ones made
only of the restricted character class with length at most 120. -/
theorem c9_fqbn_short_strings_rejected (s : String)
    (hs1 : 1 ≤ s.length) (hs2 : s.length ≤ 2) :
    isValidFqbn none = true
    ∧ isValidFqbn (some "") = true
    ∧ isValidFqbn (some s) = false
    ∧ (∀ (root : String) (fsys : String → Option FsNode) (probeOk : Bool)
        (runner : List String → Except CliError String)
        (sketchPath : JsVal) (port : Option String),
        jsTruthy sketchPath = true → isValidSerialPort port = true →
        flashHandler root fsys probeOk runner sketchPath port (some s)
          = ⟨400, "Invalid FQBN value", []⟩) := by
  have hne : ¬ s = "" := by
    intro h
    subst h
    simp at hs1
  have h3 : ¬ (3 ≤ s.length) := by omega
  have hfq : isValidFqbn (some s) = false := by
    simp [isValidFqbn, fqbnPatternTest, hne, h3]
  refine ⟨rfl, rfl, hfq, ?_⟩
  intro root fsys probeOk runner sketchPath port hsk hport
  obtain ⟨ps, rfl, hpne, hpv⟩ := isValidSerialPort_shape port hport
  simp only [flashHandler]
  rw [if_neg (by simp [hsk, hpne]), if_neg (by simp [hpv]), if_pos (by simp [hfq])]

/-- Witness for C9 at the concrete short identifier "ab". -/
theorem c9_fqbn_short_strings_rejected_witness :
    (1 ≤ "ab".length ∧ "ab".length ≤ 2)
    ∧ isValidFqbn (some "ab") = false
    ∧ flashHandler "/srv/app" (fun _ => none) true (fun _ => Except.ok "")
        (.str "sketch.ino") (some "COM3") (some "ab")
        = ⟨400, "Invalid FQBN value", []⟩ := by
  have h := c9_fqbn_short_strings_rejected "ab" (by decide) (by decide)
  exact ⟨⟨by decide, by decide⟩, h.2.2.1,
    h.2.2.2 "/srv/app" (fun _ => none) true (fun _ => Except.ok "")
      (.str "sketch.ino") (some "COM3") (by decide) (by decide)⟩

/-- C10: `sanitizePath` returns `null` for every non-string input, for every
input that is empty or whitespace-only after trimming, and for every input
whose normalized form contains the substring ".." anywhere — including a
single file-name component such as "my..sketch.ino" — and the flash endpoint
answers HTTP 400 "Invalid sketch path" whenever `sanitizePath` returns
`null` on a truthy sketch-path value. -/
theorem c10_sanitize_path_rejections :
    sanitizePath .undef = none
    ∧ sanitizePath .nonStr = none
    ∧ (∀ s : String,
        includesDotDot (posixNormalize (jsTrim (replaceBackslashes s))) = true →
        sanitizePath (.str s) = none)
    ∧ sanitizePath (.str "my..sketch.ino") = none
    ∧ (∀ s : String, jsTrim (replaceBackslashes s) = "" → sanitizePath (.str s) = none)
    ∧ (∀ (root : String) (fsys : String → Option FsNode) (probeOk : Bool)
        (runner : List String → Except CliError String)
        (v : JsVal) (port : Option String) (fqbn : Option String),
        jsTruthy v = true → isValidSerialPort port = true → isValidFqbn fqbn = true →
        sanitizePath v = none →
        flashHandler root fsys probeOk runner v port fqbn
          = ⟨400, "Invalid sketch path", []⟩) := by
  refine ⟨rfl, rfl, ?_, by decide, ?_, ?_⟩
  · intro s h
    by_cases ht : jsTrim (replaceBackslashes s) = "" <;>
      simp [sanitizePath, ht, h]
  · intro s h
    simp [sanitizePath, h]
  · intro root fsys probeOk runner v port fqbn hv hport hfqbn hsan
    obtain ⟨ps, rfl, hpne, hpv⟩ := isValidSerialPort_shape port hport
    simp only [flashHandler]
    rw [if_neg (by simp [hv, hpne]), if_neg (by simp [hpv]), if_neg (by simp [hfqbn]),
      hsan]

/-- Witness for C10 at the concrete input "my..sketch.ino". -/
theorem c10_sanitize_path_rejections_witness :
    sanitizePath (.str "my..sketch.ino") = none
    ∧ flashHandler "/srv/app" (fun _ => none) true (fun _ => Except.ok "")
        (.str "my..sketch.ino") (some "COM3") none
        = ⟨400, "Invalid sketch path", []⟩ := by
  have h := c10_sanitize_path_rejections
  exact ⟨h.2.2.2.1,
    h.2.2.2.2.2 "/srv/app" (fun _ => none) true (fun _ => Except.ok "")
      (.str "my..sketch.ino") (some "COM3") none (by decide) (by decide) (by decide)
      h.2.2.2.1⟩

lemma allowed_map_cons (n : Nat) (k : Int) :
    RateLimitResult.allowedWith (RATE_LIMIT_MAX_REQUESTS - (k + 1))
        :: (List.range n).map
            (fun i : Nat => RateLimitResult.allowedWith (RATE_LIMIT_MAX_REQUESTS - 1 - (k + 1) - (i : Int)))
      = (List.range (n + 1)).map
          (fun i : Nat => RateLimitResult.allowedWith (RATE_LIMIT_MAX_REQUESTS - 1 - k - (i : Int))) := by
  rw [List.range_succ_eq_map, List.map_cons, List.map_map]
  congr 1
  · simp only [Nat.cast_zero, RateLimitResult.allowedWith.injEq]
    ring
  · apply List.map_congr_left
    intro i _
    simp only [Function.comp_apply, RateLimitResult.allowedWith.injEq]
    push_cast
    ring

lemma runRateCalls_allowed (key : String) :
    ∀ (ts : List Int) (k t0 : Int) (store : RateStore),
      store key = some ⟨t0, k⟩ → 1 ≤ k →
      k + ts.length ≤ RATE_LIMIT_MAX_REQUESTS →
      (∀ t ∈ ts, t - t0 ≤ RATE_LIMIT_WINDOW_MS) →
      (runRateCalls ts key store).1
          = (List.range ts.length).map
              (fun i : Nat => RateLimitResult.allowedWith (RATE_LIMIT_MAX_REQUESTS - 1 - k - (i : Int)))
        ∧ (runRateCalls ts key store).2 key = some ⟨t0, k + ts.length⟩ := by
  intro ts
  induction ts with
  | nil =>
      intro k t0 store hs hk hmax hw
      simp [runRateCalls, hs]
  | cons t rest ih =>
      intro k t0 store hs hk hmax hw
      have hwin : ¬ RATE_LIMIT_WINDOW_MS < t - t0 := by
        have := hw t (by simp)
        omega
      have hrest : (k + 1) + (rest.length : Int) ≤ RATE_LIMIT_MAX_REQUESTS := by
        simp only [List.length_cons] at hmax
        push_cast at hmax ⊢
        omega
      have hcnt : ¬ RATE_LIMIT_MAX_REQUESTS ≤ k := by
        have hl : (0 : Int) ≤ (rest.length : Int) := by positivity
        omega
      have hstep : rateLimit t key store =
          (.allowedWith (RATE_LIMIT_MAX_REQUESTS - (k + 1)),
            setStore key ⟨t0, k + 1⟩ store) := by
        simp only [rateLimit, hs]
        rw [if_neg hwin, if_neg hcnt]
      obtain ⟨ih1, ih2⟩ := ih (k + 1) t0 (setStore key ⟨t0, k + 1⟩ store)
        (setStore_same key _ store) (by omega) hrest
        (fun x hx => hw x (by simp [hx]))
      constructor
      · simp only [runRateCalls, hstep]
        rw [ih1, List.length_cons, allowed_map_cons]
      · simp only [runRateCalls, hstep]
        rw [ih2]
        simp only [Option.some.injEq, RateRecord.mk.injEq, List.length_cons,
          true_and, eq_self_iff_true]
        push_cast
        ring

lemma runRateCalls_append (key : String) (a b : List Int) :
    ∀ store : RateStore,
      (runRateCalls (a ++ b) key store).1
          = (runRateCalls a key store).1
            ++ (runRateCalls b key (runRateCalls a key store).2).1
      ∧ (runRateCalls (a ++ b) key store).2
          = (runRateCalls b key (runRateCalls a key store).2).2 := by
  induction a with
  | nil =>
      intro store
      simp [runRateCalls]
  | cons t rest ih =>
      intro store
      simp only [List.cons_append, runRateCalls, List.append_eq]
      exact ⟨by rw [(ih _).1], (ih _).2⟩

lemma allowed_prefix_assemble :
    RateLimitResult.allowedWith (RATE_LIMIT_MAX_REQUESTS - 1)
        :: (List.range 9).map
            (fun i : Nat => RateLimitResult.allowedWith (RATE_LIMIT_MAX_REQUESTS - 1 - 1 - (i : Int)))
      = (List.range 10).map
          (fun i : Nat => RateLimitResult.allowedWith (RATE_LIMIT_MAX_REQUESTS - 1 - (i : Int))) := by
  decide

/-- C5: from no stored record, 10 consecutive `rateLimit` calls for one key
within one window are all allowed, the i-th reporting
`remaining = MAX - count` (here `MAX - 1 - i` with count `i + 1`), and the
11th call in the same window is denied with
`retryAfterSeconds = ceil((WINDOW_MS - elapsed) / 1000) > 0`. -/
theorem c5_rate_limit_exhaustion (store : RateStore) (key : String)
    (t0 t10 : Int) (ts : List Int)
    (h0 : store key = none) (hlen : ts.length = 9)
    (hts : ∀ t ∈ ts, t - t0 < RATE_LIMIT_WINDOW_MS)
    (h10 : t10 - t0 < RATE_LIMIT_WINDOW_MS) :
    (runRateCalls (t0 :: (ts ++ [t10])) key store).1
      = (List.range 10).map
          (fun i : Nat => RateLimitResult.allowedWith (RATE_LIMIT_MAX_REQUESTS - 1 - (i : Int)))
        ++ [RateLimitResult.deniedWith
              (jsCeilDiv (RATE_LIMIT_WINDOW_MS - (t10 - t0)) 1000)]
    ∧ 0 < jsCeilDiv (RATE_LIMIT_WINDOW_MS - (t10 - t0)) 1000 := by
  have hfirst : rateLimit t0 key store =
      (.allowedWith (RATE_LIMIT_MAX_REQUESTS - 1), setStore key ⟨t0, 1⟩ store) := by
    simp only [rateLimit, h0]
  obtain ⟨ha1, ha2⟩ := runRateCalls_allowed key ts 1 t0 (setStore key ⟨t0, 1⟩ store)
    (setStore_same key _ store) le_rfl
    (by rw [hlen]; decide)
    (fun t ht => le_of_lt (hts t ht))
  obtain ⟨hb1, _⟩ := runRateCalls_append key ts [t10] (setStore key ⟨t0, 1⟩ store)
  have hk10 : (1 : Int) + (ts.length : Int) = 10 := by rw [hlen]; norm_num
  have hlast : (runRateCalls [t10] key
      (runRateCalls ts key (setStore key ⟨t0, 1⟩ store)).2).1
      = [RateLimitResult.deniedWith
          (jsCeilDiv (RATE_LIMIT_WINDOW_MS - (t10 - t0)) 1000)] := by
    simp only [runRateCalls, rateLimit, ha2]
    rw [if_neg (by omega), if_pos (by rw [hk10]; decide)]
  constructor
  · simp only [runRateCalls, hfirst]
    rw [hb1, ha1, hlast, hlen, ← List.cons_append, allowed_prefix_assemble]
  · have hp : 0 < RATE_LIMIT_WINDOW_MS - (t10 - t0) := by
      simp only [RATE_LIMIT_WINDOW_MS] at h10 ⊢
      omega
    simp only [jsCeilDiv]
    omega

/-- Witness for C5 with eleven calls at time 0 from a fresh store. -/
theorem c5_rate_limit_exhaustion_witness :
    (runRateCalls (0 :: (List.replicate 9 0 ++ [0])) "login:1.2.3.4" (fun _ => none)).1
      = (List.range 10).map
          (fun i : Nat => RateLimitResult.allowedWith (RATE_LIMIT_MAX_REQUESTS - 1 - (i : Int)))
        ++ [RateLimitResult.deniedWith
              (jsCeilDiv (RATE_LIMIT_WINDOW_MS - ((0 : Int) - 0)) 1000)]
    ∧ (0 : Int) < jsCeilDiv (RATE_LIMIT_WINDOW_MS - ((0 : Int) - 0)) 1000 :=
  c5_rate_limit_exhaustion (fun _ => none) "login:1.2.3.4" 0 0 (List.replicate 9 0)
    rfl (by decide) (by decide) (by decide)

/-- C6 counterexample: with an existing maxed-out record whose window started
at 0, a lookup at exactly `WINDOW_MS` elapsed (≥ `WINDOW_MS`) is *not*
treated as expired: the call is denied (with `retryAfter = 0`) and the
record is not replaced by a fresh `count = 1` record. -/
theorem c6_counterexample :
    RATE_LIMIT_WINDOW_MS ≤ (900000 : Int) - 0
    ∧ (rateLimit 900000 "login:10.0.0.1"
        (fun k => if k = "login:10.0.0.1" then some ⟨0, 10⟩ else none)).1
      = RateLimitResult.deniedWith 0
    ∧ (rateLimit 900000 "login:10.0.0.1"
        (fun k => if k = "login:10.0.0.1" then some ⟨0, 10⟩ else none)).2
        "login:10.0.0.1"
      = some ⟨0, 10⟩ :=
  ⟨by decide, by decide, by decide⟩

/-- C6 (amended): a lookup whose elapsed time since `windowStart` is
*strictly greater* than `WINDOW_MS` treats the record as expired: it replaces
it with a fresh `count = 1` record and allows the call, and after such a
clock advance the key is again allowed `MAX` fresh calls (at exactly
`WINDOW_MS` elapsed the record is still honoured). -/
theorem c6_expired_record_resets (store : RateStore) (key : String)
    (rec : RateRecord) (now0 : Int) (ts : List Int)
    (hs : store key = some rec)
    (hexp : RATE_LIMIT_WINDOW_MS < now0 - rec.windowStart)
    (hlen : ts.length = 9)
    (hts : ∀ t ∈ ts, t - now0 < RATE_LIMIT_WINDOW_MS) :
    rateLimit now0 key store
        = (.allowedWith (RATE_LIMIT_MAX_REQUESTS - 1), setStore key ⟨now0, 1⟩ store)
    ∧ (runRateCalls (now0 :: ts) key store).1
        = (List.range 10).map
            (fun i : Nat => RateLimitResult.allowedWith (RATE_LIMIT_MAX_REQUESTS - 1 - (i : Int))) := by
  have hfirst : rateLimit now0 key store =
      (.allowedWith (RATE_LIMIT_MAX_REQUESTS - 1), setStore key ⟨now0, 1⟩ store) := by
    simp only [rateLimit, hs]
    rw [if_pos hexp]
  refine ⟨hfirst, ?_⟩
  obtain ⟨ha1, _⟩ := runRateCalls_allowed key ts 1 now0 (setStore key ⟨now0, 1⟩ store)
    (setStore_same key _ store) le_rfl
    (by rw [hlen]; decide)
    (fun t ht => le_of_lt (hts t ht))
  simp only [runRateCalls, hfirst]
  rw [ha1, hlen, allowed_prefix_assemble]

/-- Witness for C6 (amended): a record that started at 0, looked up at
`WINDOW_MS + 1`, then nine more calls. -/
theorem c6_expired_record_resets_witness :
    rateLimit 900001 "k" (fun k => if k = "k" then some ⟨0, 10⟩ else none)
        = (.allowedWith (RATE_LIMIT_MAX_REQUESTS - 1),
           setStore "k" ⟨900001, 1⟩ (fun k => if k = "k" then some ⟨0, 10⟩ else none))
    ∧ (runRateCalls (900001 :: List.replicate 9 900001) "k"
        (fun k => if k = "k" then some ⟨0, 10⟩ else none)).1
        = (List.range 10).map
            (fun i : Nat => RateLimitResult.allowedWith (RATE_LIMIT_MAX_REQUESTS - 1 - (i : Int))) :=
  c6_expired_record_resets (fun k => if k = "k" then some ⟨0, 10⟩ else none) "k"
    ⟨0, 10⟩ 900001 (List.replicate 9 900001) (by decide) (by decide) (by decide)
    (by decide)

lemma runCredFailures_accum (key : String) (hkey : key ≠ "") :
    ∀ (ts : List Int) (k t0 : Int) (store : CredStore),
      store key = some ⟨k, t0⟩ →
      (∀ t ∈ ts, t - t0 ≤ CREDENTIAL_WINDOW_MS) →
      (runCredFailures ts key store) key = some ⟨k + ts.length, t0⟩ := by
  intro ts
  induction ts with
  | nil =>
      intro k t0 store hs hw
      simpa [runCredFailures] using hs
  | cons t rest ih =>
      intro k t0 store hs hw
      have hwin : ¬ CREDENTIAL_WINDOW_MS < t - t0 := by
        have := hw t (by simp)
        omega
      have hstep : recordCredentialFailure t key store = setStore key ⟨k + 1, t0⟩ store := by
        simp only [recordCredentialFailure, if_neg hkey, hs]
        rw [if_neg hwin]
      have htail := ih (k + 1) t0 (setStore key ⟨k + 1, t0⟩ store)
        (setStore_same key _ store) (fun x hx => hw x (by simp [hx]))
      simp only [runCredFailures, List.foldl_cons] at htail ⊢
      rw [hstep, htail]
      simp only [Option.some.injEq, CredRecord.mk.injEq, List.length_cons, and_true,
        eq_self_iff_true]
      push_cast
      ring

/-- C7: five consecutive `recordCredentialFailure` calls for one identity
within the 10-minute window make the next `getCredentialThrottle` call (still
inside the window) report blocked with a retry-after value, and a single
`resetCredentialFailures` call deletes the record so that
`getCredentialThrottle` reports not blocked immediately, at any later clock
value whatsoever. -/
theorem c7_credential_throttle_block_and_reset (store : CredStore) (key : String)
    (t1 t6 t7 : Int) (ts : List Int)
    (hkey : key ≠ "") (h0 : store key = none) (hlen : ts.length = 4)
    (hts : ∀ t ∈ ts, t - t1 ≤ CREDENTIAL_WINDOW_MS)
    (h6 : t6 - t1 ≤ CREDENTIAL_WINDOW_MS) :
    (getCredentialThrottle t6 key (runCredFailures (t1 :: ts) key store)).1
      = .blockedWith (jsCeilDiv (CREDENTIAL_WINDOW_MS - (t6 - t1)) 1000)
    ∧ (getCredentialThrottle t7 key
        (resetCredentialFailures key (runCredFailures (t1 :: ts) key store))).1
      = .notBlocked := by
  have hfirst : recordCredentialFailure t1 key store = setStore key ⟨1, t1⟩ store := by
    simp only [recordCredentialFailure, if_neg hkey, h0]
  have hacc : (runCredFailures (t1 :: ts) key store) key = some ⟨1 + ts.length, t1⟩ := by
    have htail := runCredFailures_accum key hkey ts 1 t1 (setStore key ⟨1, t1⟩ store)
      (setStore_same key _ store) hts
    simp only [runCredFailures, List.foldl_cons] at htail ⊢
    rw [hfirst]
    exact htail
  have h5 : (1 : Int) + (ts.length : Int) = 5 := by rw [hlen]; norm_num
  constructor
  · simp only [getCredentialThrottle, if_neg hkey, hacc]
    rw [if_neg (by omega : ¬ CREDENTIAL_WINDOW_MS < t6 - t1),
      if_pos (by rw [h5]; decide : CREDENTIAL_MAX_FAILURES ≤ 1 + (ts.length : Int))]
  · have hdel : (resetCredentialFailures key (runCredFailures (t1 :: ts) key store)) key
        = none := by
      simp [resetCredentialFailures, delStore]
    simp only [getCredentialThrottle, if_neg hkey, hdel]

/-- Witness for C7: five failures at time 0, a blocked status lookup at
time 0, and an unblocked lookup long after the window would have expired. -/
theorem c7_credential_throttle_block_and_reset_witness :
    (getCredentialThrottle 0 "a@b.com"
        (runCredFailures (0 :: [0, 0, 0, 0]) "a@b.com" (fun _ => none))).1
      = .blockedWith (jsCeilDiv (CREDENTIAL_WINDOW_MS - ((0 : Int) - 0)) 1000)
    ∧ (getCredentialThrottle 999999999 "a@b.com"
        (resetCredentialFailures "a@b.com"
          (runCredFailures (0 :: [0, 0, 0, 0]) "a@b.com" (fun _ => none)))).1
      = .notBlocked :=
  c7_credential_throttle_block_and_reset (fun _ => none) "a@b.com" 0 0 999999999
    [0, 0, 0, 0] (by decide) rfl (by decide) (by decide) (by decide)

lemma runFlashPhases_compile_error (runner : List String → Except CliError String)
    (c u : List String) (e : CliError) (hc : runner c = Except.error e) :
    runFlashPhases runner c u = ⟨500, flashFailureMessage e, [c]⟩ := by
  simp only [runFlashPhases, hc]

lemma runFlashPhases_status (runner : List String → Except CliError String)
    (c u : List String) :
    (runFlashPhases runner c u).status = 500 ∨ (runFlashPhases runner c u).status = 200 := by
  unfold runFlashPhases
  split
  · left
    rfl
  · split
    · left
      rfl
    · right
      rfl

lemma runFlashPhases_calls_head (runner : List String → Except CliError String)
    (c u : List String) :
    (runFlashPhases runner c u).cliCalls.head? = some c := by
  unfold runFlashPhases
  split
  · rfl
  · split <;> rfl

lemma flashHandler_shape (root : String) (fsys : String → Option FsNode)
    (probeOk : Bool) (runner : List String → Except CliError String)
    (sketchPath : JsVal) (port : Option String) (fqbn : Option String) :
    (flashHandler root fsys probeOk runner sketchPath port fqbn).cliCalls = []
    ∨ ∃ resolved ps,
        flashHandler root fsys probeOk runner sketchPath port fqbn
          = runFlashPhases runner ("compile" :: resolved :: fqbnArgs fqbn)
              ("upload" :: resolved :: "--port" :: ps :: fqbnArgs fqbn) := by
  cases port with
  | none => left; rfl
  | some ps =>
      simp only [flashHandler]
      repeat' split
      all_goals first
        | (left; rfl)
        | (right; exact ⟨_, _, rfl⟩)

/-- C1: in every flash request, the upload invocation is attempted only if
the compile invocation already resolved: with a Process Runner that rejects
every compile invocation, the handler never spawns an upload invocation, and
if it did reach the compile phase it responds HTTP 500. -/
theorem c1_upload_requires_compile_success (root : String)
    (fsys : String → Option FsNode) (probeOk : Bool)
    (runner : List String → Except CliError String)
    (sketchPath : JsVal) (port : Option String) (fqbn : Option String)
    (hrej : ∀ args : List String, args.head? = some "compile" →
      ∃ e, runner args = Except.error e) :
    (∀ l ∈ (flashHandler root fsys probeOk runner sketchPath port fqbn).cliCalls,
      l.head? ≠ some "upload")
    ∧ ((flashHandler root fsys probeOk runner sketchPath port fqbn).cliCalls ≠ [] →
        (flashHandler root fsys probeOk runner sketchPath port fqbn).status = 500) := by
  rcases flashHandler_shape root fsys probeOk runner sketchPath port fqbn with
    hnil | ⟨resolved, ps, hphases⟩
  · constructor
    · intro l hl
      rw [hnil] at hl
      cases hl
    · intro hne
      exact absurd hnil hne
  · obtain ⟨e, he⟩ := hrej ("compile" :: resolved :: fqbnArgs fqbn) rfl
    have hout : flashHandler root fsys probeOk runner sketchPath port fqbn
        = ⟨500, flashFailureMessage e, ["compile" :: resolved :: fqbnArgs fqbn]⟩ := by
      rw [hphases, runFlashPhases_compile_error runner _ _ e he]
    rw [hout]
    constructor
    · intro l hl
      simp only [List.mem_singleton] at hl
      subst hl
      simp
    · intro _
      rfl

/-- Witness for C1: a compile-rejecting runner on an otherwise valid request
yields HTTP 500 after a non-empty (compile-only) invocation list. -/
theorem c1_upload_requires_compile_success_witness :
    (flashHandler "/srv/app"
        (fun p => if p = "/srv/app/sketch.ino" then some FsNode.file else none) true
        (fun _ => Except.error ⟨"boom", false, ""⟩)
        (.str "sketch.ino") (some "/dev/ttyUSB0") none).cliCalls ≠ []
    ∧ (flashHandler "/srv/app"
        (fun p => if p = "/srv/app/sketch.ino" then some FsNode.file else none) true
        (fun _ => Except.error ⟨"boom", false, ""⟩)
        (.str "sketch.ino") (some "/dev/ttyUSB0") none).status = 500 := by
  have h := c1_upload_requires_compile_success "/srv/app"
    (fun p => if p = "/srv/app/sketch.ino" then some FsNode.file else none) true
    (fun _ => Except.error ⟨"boom", false, ""⟩)
    (.str "sketch.ino") (some "/dev/ttyUSB0") none
    (fun args _ => ⟨⟨"boom", false, ""⟩, rfl⟩)
  exact ⟨by decide, h.2 (by decide)⟩

lemma sanitizePath_some_ne_empty (s n : String)
    (h : sanitizePath (.str s) = some n) : s ≠ "" := by
  intro he
  subst he
  rw [show sanitizePath (JsVal.str "") = none from rfl] at h
  exact Option.noConfusion h

/-- C2: sketch-path validation in the flash handler: the traversal input
"../../etc/passwd" is rejected with HTTP 400; whenever the sanitized path
resolves (against the project root) to a string that does not start with the
root — the containment check is exactly that string-prefix test — the
request is rejected with HTTP 400; a path that resolves inside the root
with an allow-listed extension (.ino/.bin) naming an existing regular file
passes validation (the response is never a 400); and a non-existent file is
rejected with HTTP 400. -/
theorem c2_sketch_path_validation (root : String) (fsys : String → Option FsNode)
    (probeOk : Bool) (runner : List String → Except CliError String)
    (port : Option String) (fqbn : Option String)
    (hport : isValidSerialPort port = true) (hfqbn : isValidFqbn fqbn = true) :
    flashHandler root fsys probeOk runner (.str "../../etc/passwd") port fqbn
        = ⟨400, "Invalid sketch path", []⟩
    ∧ (∀ s n : String, sanitizePath (.str s) = some n →
        strStartsWith (posixResolve root n) root = false →
        flashHandler root fsys probeOk runner (.str s) port fqbn
          = ⟨400, "Sketch path must stay within project workspace", []⟩)
    ∧ (∀ s n : String, sanitizePath (.str s) = some n →
        strStartsWith (posixResolve root n) root = true →
        (strToLower (posixExtname (posixResolve root n)) = ".ino"
          ∨ strToLower (posixExtname (posixResolve root n)) = ".bin") →
        fsys (posixResolve root n) = some FsNode.file →
        (flashHandler root fsys probeOk runner (.str s) port fqbn).status ≠ 400)
    ∧ (∀ s n : String, sanitizePath (.str s) = some n →
        strStartsWith (posixResolve root n) root = true →
        (strToLower (posixExtname (posixResolve root n)) = ".ino"
          ∨ strToLower (posixExtname (posixResolve root n)) = ".bin") →
        fsys (posixResolve root n) = none →
        flashHandler root fsys probeOk runner (.str s) port fqbn
          = ⟨400, "Sketch file not found", []⟩) := by
  obtain ⟨ps, rfl, hpne, hpv⟩ := isValidSerialPort_shape port hport
  refine ⟨?_, ?_, ?_, ?_⟩
  · simp only [flashHandler]
    rw [if_neg (by simp [jsTruthy, hpne]), if_neg (by simp [hpv]),
      if_neg (by simp [hfqbn]),
      show sanitizePath (JsVal.str "../../etc/passwd") = none from by decide]
  · intro s n hsan hesc
    have hsne := sanitizePath_some_ne_empty s n hsan
    simp only [flashHandler]
    rw [if_neg (by simp [jsTruthy, hsne, hpne]), if_neg (by simp [hpv]),
      if_neg (by simp [hfqbn]), hsan]
    dsimp only
    rw [if_pos hesc]
  · intro s n hsan hin hext hfile
    have hsne := sanitizePath_some_ne_empty s n hsan
    simp only [flashHandler]
    rw [if_neg (by simp [jsTruthy, hsne, hpne]), if_neg (by simp [hpv]),
      if_neg (by simp [hfqbn]), hsan]
    dsimp only
    rw [if_neg (by rw [hin]; simp), if_neg (not_not_intro hext), hfile]
    by_cases hpr : probeOk = false
    · rw [if_pos hpr]
      decide
    · rw [if_neg hpr]
      rcases runFlashPhases_status runner
        ("compile" :: posixResolve root n :: fqbnArgs fqbn)
        ("upload" :: posixResolve root n :: "--port" :: ps :: fqbnArgs fqbn) with
        h5 | h2
      · rw [h5]
        decide
      · rw [h2]
        decide
  · intro s n hsan hin hext hfile
    have hsne := sanitizePath_some_ne_empty s n hsan
    simp only [flashHandler]
    rw [if_neg (by simp [jsTruthy, hsne, hpne]), if_neg (by simp [hpv]),
      if_neg (by simp [hfqbn]), hsan]
    dsimp only
    rw [if_neg (by rw [hin]; simp), if_neg (not_not_intro hext), hfile]

/-- Witness for C2 at a concrete root, filesystem and request. -/
theorem c2_sketch_path_validation_witness :
    flashHandler "/srv/app"
        (fun p => if p = "/srv/app/sketch.ino" then some FsNode.file else none) true
        (fun _ => Except.ok "") (.str "../../etc/passwd") (some "/dev/ttyUSB0") none
      = ⟨400, "Invalid sketch path", []⟩
    ∧ (flashHandler "/srv/app"
        (fun p => if p = "/srv/app/sketch.ino" then some FsNode.file else none) true
        (fun _ => Except.ok "") (.str "sketch.ino") (some "/dev/ttyUSB0") none).status ≠ 400
    ∧ flashHandler "/srv/app"
        (fun p => if p = "/srv/app/sketch.ino" then some FsNode.file else none) true
        (fun _ => Except.ok "") (.str "missing.ino") (some "/dev/ttyUSB0") none
      = ⟨400, "Sketch file not found", []⟩ := by
  have h := c2_sketch_path_validation "/srv/app"
    (fun p => if p = "/srv/app/sketch.ino" then some FsNode.file else none) true
    (fun _ => Except.ok "") (some "/dev/ttyUSB0") none (by decide) (by decide)
  refine ⟨h.1, ?_, ?_⟩
  · exact h.2.2.1 "sketch.ino" "sketch.ino" (by decide) (by decide) (by decide)
      (by decide)
  · exact h.2.2.2 "missing.ino" "missing.ino" (by decide) (by decide) (by decide)
      (by decide)
